import Mathlib

set_option linter.unusedVariables false

namespace SQL

/-- The apostrophe character; written via its code point to keep string
building uniform with the Rust format strings. -/
def quoteChar : Char := Char.ofNat 39

/-- The double-quote character. -/
def dquoteChar : Char := Char.ofNat 34

/-- One-character string holding an apostrophe. -/
def sq : String := String.mk [quoteChar]

/-- One-character string holding a double quote. -/
def dq : String := String.mk [dquoteChar]

/-- Tokens produced by the lexer (`enum Token` in src/tokenizer.rs). -/
inductive Token where
  | Keyword : String → Token
  | Identifier : String → Token
  | Operator : String → Token
  | Number : Int → Token
  | StringLiteral : String → Token
  | BoolLiteral : Bool → Token
  | Comma : Token
  | Semicolon : Token
  | LParen : Token
  | RParen : Token
  | Star : Token
  | Asc : Token
  | Desc : Token
  | Int : Token
  | Varchar : Nat → Token
  | Bool : Token
  | PrimaryKey : Token
  | NotNull : Token
  | Check : Token
  | EOF : Token
deriving Repr, DecidableEq

/-- Characters accepted into an identifier-like run by the lexer:
`c.is_alphanumeric() || c == '_' || c == '.'` (ASCII model of the Rust
Unicode predicate; all inputs in the claims are ASCII). -/
def isWordChar (c : Char) : Bool := c.isAlphanum || c = '_' || c = '.'

/-- The maximal identifier-like run at the head of the character list,
together with the remaining characters (the inner accumulation loop of the
default arm of the lexer's match). -/
def takeWordChars : List Char → List Char × List Char
  | [] => ([], [])
  | c :: cs =>
    if isWordChar c then
      let p := takeWordChars cs
      (c :: p.1, p.2)
    else ([], c :: cs)

/-- The maximal digit run at the head of the character list (the length
accumulation loop of the VARCHAR arm). -/
def takeDigits : List Char → List Char × List Char
  | [] => ([], [])
  | c :: cs =>
    if c.isDigit then
      let p := takeDigits cs
      (c :: p.1, p.2)
    else ([], c :: cs)

/-- The string-literal scan: consume characters until the triggering quote
character reappears (consuming it) or input ends; the collected text
excludes the delimiters. -/
def takeStringLit (quote : Char) : List Char → List Char × List Char
  | [] => ([], [])
  | c :: cs =>
    if c = quote then ([], cs)
    else
      let p := takeStringLit quote cs
      (c :: p.1, p.2)

/-- Value of a digit run read in base 10. -/
def digitsToNat (ds : List Char) : Nat :=
  ds.foldl (fun a c => a * 10 + (c.toNat - 48)) 0

/-- Rust `str::parse::<u64>` restricted to the shapes the lexer can feed
it: succeeds exactly on a nonempty all-digit run whose value fits in
64 bits (the run carries no sign, so only that form can succeed). -/
def parseU64 (ds : List Char) : Option Nat :=
  if ds ≠ [] ∧ ds.all Char.isDigit ∧ digitsToNat ds < 2 ^ 64 then some (digitsToNat ds)
  else none

/-- Rust `str::to_uppercase` on an identifier-like run (ASCII model:
uppercase each character). -/
def toUppercase (s : String) : String := String.mk (s.data.map Char.toUpper)

/-- Rust `str::parse::<i64>` on an identifier-like run: the run can only
contain alphanumerics, underscore and dot, so parsing succeeds exactly on
a nonempty all-digit run whose value fits in a signed 64-bit integer. -/
def parseI64 (ds : List Char) : Option Int :=
  if ds ≠ [] ∧ ds.all Char.isDigit ∧ digitsToNat ds ≤ 2 ^ 63 - 1 then
    some (digitsToNat ds : Int)
  else none

/-- The `match upper.as_str()` classification of an identifier-like run
(the default arm of the lexer's big match in src/tokenizer.rs), in source
order.  `ident` is the original-case run, `rest` the characters after it;
the VARCHAR arm additionally consumes from `rest`. -/
def classifyWord (ident : String) (rest : List Char) : List Token × List Char :=
  let upper := toUppercase ident
  if upper = "SELECT" ∨ upper = "FROM" ∨ upper = "WHERE" ∨ upper = "CREATE" ∨
      upper = "TABLE" ∨ upper = "ORDER" ∨ upper = "BY" ∨ upper = "NOT" then
    ([Token.Keyword upper], rest)
  else if upper = "AND" ∨ upper = "OR" then ([Token.Operator upper], rest)
  else if upper = "TRUE" then ([Token.BoolLiteral true], rest)
  else if upper = "FALSE" then ([Token.BoolLiteral false], rest)
  else if upper = "ASC" then ([Token.Asc], rest)
  else if upper = "DESC" then ([Token.Desc], rest)
  else if upper = "INT" then ([Token.Int], rest)
  else if upper = "VARCHAR" then
    -- `chars.next()` consumes one character (the expected opening paren,
    -- whatever it actually is), then the digit run, then one more
    -- character (the expected closing paren).
    let r1 := rest.tail
    let d := takeDigits r1
    let r2 := d.2.tail
    match parseU64 d.1 with
    | some len => ([Token.Varchar len], r2)
    | none => ([Token.Identifier ident], r2)
  else if upper = "BOOL" then ([Token.Bool], rest)
  else if upper = "PRIMARY" then ([Token.PrimaryKey], rest)
  else if upper = "KEY" then ([Token.Keyword "KEY"], rest)
  else if upper = "NULL" then ([Token.Keyword "NULL"], rest)
  else if upper = "CHECK" then ([Token.Check], rest)
  else
    match parseI64 ident.data with
    | some n => ([Token.Number n], rest)
    | none => ([Token.Identifier ident], rest)

/-- One iteration of the lexer's outer `while let` loop on a nonempty
stream: the head character `c`, the remaining characters `cs`; returns the
tokens pushed during this iteration (possibly none, for whitespace) and
the remaining character stream afterwards.  Mirrors the big `match ch`
in `tokenize` (src/tokenizer.rs) arm by arm, in source order. -/
def tokStep (c : Char) (cs : List Char) : List Token × List Char :=
  if c.isWhitespace then ([], cs)
  else if c = ',' then ([Token.Comma], cs)
  else if c = ';' then ([Token.Semicolon], cs)
  else if c = '(' then ([Token.LParen], cs)
  else if c = ')' then ([Token.RParen], cs)
  else if c = '*' then ([Token.Star], cs)
  else if c = '<' then
    match cs with
    | '=' :: rest => ([Token.Operator "<="], rest)
    | _ => ([Token.Operator "<"], cs)
  else if c = '>' then
    match cs with
    | '=' :: rest => ([Token.Operator ">="], rest)
    | _ => ([Token.Operator ">"], cs)
  else if c = '=' then ([Token.Operator "="], cs)
  else if c = '+' ∨ c = '-' ∨ c = '/' then ([Token.Operator (String.mk [c])], cs)
  else if c = quoteChar ∨ c = dquoteChar then
    let p := takeStringLit c cs
    ([Token.StringLiteral (String.mk p.1)], p.2)
  else
    let p := takeWordChars (c :: cs)
    classifyWord (String.mk p.1) p.2

/-- The lexer's outer loop, with `fuel` bounding the number of iterations.
The Rust loop has no such bound; `none` means the bound was hit, and a
result of `none` for every fuel models non-termination of the source. -/
def tokenizeAux : Nat → List Char → List Token → Option (List Token)
  | _, [], acc => some (acc ++ [Token.EOF])
  | 0, _ :: _, _ => none
  | fuel + 1, c :: cs, acc =>
    let p := tokStep c cs
    tokenizeAux fuel p.2 (acc ++ p.1)

/-- `tokenize` from src/tokenizer.rs (fuelled model). -/
def tokenize (fuel : Nat) (input : String) : Option (List Token) :=
  tokenizeAux fuel input.data []

/-- The character stream left after `n` iterations of the lexer's outer
loop (used to reach a state of interest with a concrete computation). -/
def tokRun : Nat → List Char → List Char
  | 0, cs => cs
  | _ + 1, [] => []
  | n + 1, c :: cs => tokRun n (tokStep c cs).2

/-- `enum UnaryOperator` from src/expression.rs. -/
inductive UnaryOperator where
  | Not : UnaryOperator
deriving Repr, DecidableEq

/-- `enum BinaryOperator` from src/expression.rs; `Unknown` preserves
unrecognized operator text instead of failing. -/
inductive BinaryOperator where
  | Or : BinaryOperator
  | And : BinaryOperator
  | Equal : BinaryOperator
  | NotEqual : BinaryOperator
  | Less : BinaryOperator
  | LessEqual : BinaryOperator
  | Greater : BinaryOperator
  | GreaterEqual : BinaryOperator
  | Add : BinaryOperator
  | Subtract : BinaryOperator
  | Multiply : BinaryOperator
  | Divide : BinaryOperator
  | Unknown : String → BinaryOperator
deriving Repr, DecidableEq

/-- `enum Expression` from src/expression.rs. -/
inductive Expression where
  | Number : Int → Expression
  | Identifier : String → Expression
  | String : String → Expression
  | Bool : Bool → Expression
  | UnaryOp : UnaryOperator → Expression → Expression
  | BinaryOp : Expression → BinaryOperator → Expression → Expression
deriving Repr, DecidableEq

/-- `get_precedence` from src/expression.rs (unknown operators get 0). -/
def get_precedence (op : String) : Nat :=
  if op = "OR" then 1
  else if op = "AND" then 2
  else if op = "=" || op = "<" || op = ">" || op = "<=" || op = ">=" then 3
  else if op = "+" || op = "-" then 4
  else if op = "*" || op = "/" then 5
  else 0

/-- `to_binary_operator` from src/expression.rs; the final arm maps any
other text to `Unknown`, so the function always returns a value. -/
def to_binary_operator (op : String) : Option BinaryOperator :=
  if op = "OR" then some BinaryOperator.Or
  else if op = "AND" then some BinaryOperator.And
  else if op = "=" then some BinaryOperator.Equal
  else if op = "!=" then some BinaryOperator.NotEqual
  else if op = "<" then some BinaryOperator.Less
  else if op = "<=" then some BinaryOperator.LessEqual
  else if op = ">" then some BinaryOperator.Greater
  else if op = ">=" then some BinaryOperator.GreaterEqual
  else if op = "+" then some BinaryOperator.Add
  else if op = "-" then some BinaryOperator.Subtract
  else if op = "*" then some BinaryOperator.Multiply
  else if op = "/" then some BinaryOperator.Divide
  else some (BinaryOperator.Unknown op)

/-- Error message of the default primary arm of `parse_expression`. -/
def errUnexpected : String := "Unexpected token at beginning of expression"

/-- Error message for a missing closing parenthesis: `Expected ')'`. -/
def errExpectedRParen : String := "Expected " ++ sq ++ ")" ++ sq

/-- Error message `Unknown operator '<op>'` (reachable only if
`to_binary_operator` could return no value). -/
def errUnknownOp (op : String) : String := "Unknown operator " ++ sq ++ op ++ sq

mutual

/-- `parse_expression` from src/expression.rs (fuelled model).  The first
phase parses a primary (literal, identifier, NOT-prefixed unary at
minimum precedence 6, or parenthesized sub-expression at minimum
precedence 0); `parseExprLoop` is the operator-folding `loop` that
follows.  Returns the expression and the count of tokens consumed from
the start of the slice; `none` models fuel exhaustion. -/
def parse_expression : Nat → List Token → Nat → Option (Except String (Expression × Nat))
  | 0, _, _ => none
  | fuel + 1, tokens, minPrec =>
    match tokens with
    | Token.Number n :: _ => parseExprLoop fuel tokens minPrec (Expression.Number n) 1
    | Token.StringLiteral s :: _ => parseExprLoop fuel tokens minPrec (Expression.String s) 1
    | Token.BoolLiteral b :: _ => parseExprLoop fuel tokens minPrec (Expression.Bool b) 1
    | Token.Identifier name :: _ =>
      parseExprLoop fuel tokens minPrec (Expression.Identifier name) 1
    | Token.Keyword k :: rest =>
      if k = "NOT" then
        match parse_expression fuel rest 6 with
        | none => none
        | some (Except.error e) => some (Except.error e)
        | some (Except.ok (inner, consumed)) =>
          parseExprLoop fuel tokens minPrec
            (Expression.UnaryOp UnaryOperator.Not inner) (1 + consumed)
      else some (Except.error errUnexpected)
    | Token.LParen :: rest =>
      match parse_expression fuel rest 0 with
      | none => none
      | some (Except.error e) => some (Except.error e)
      | some (Except.ok (inner, consumed)) =>
        match tokens.get? (1 + consumed) with
        | some Token.RParen => parseExprLoop fuel tokens minPrec inner (1 + consumed + 1)
        | _ => some (Except.error errExpectedRParen)
    | _ => some (Except.error errUnexpected)

/-- The binary-operator folding `loop` inside `parse_expression`:
while the token at `pos` is an operator of precedence at least `minPrec`,
consume it, parse the right-hand side at precedence one higher, and fold
into a `BinaryOp`. -/
def parseExprLoop :
    Nat → List Token → Nat → Expression → Nat → Option (Except String (Expression × Nat))
  | 0, _, _, _, _ => none
  | fuel + 1, tokens, minPrec, lhs, pos =>
    match tokens.get? pos with
    | some (Token.Operator op) =>
      if get_precedence op < minPrec then some (Except.ok (lhs, pos))
      else
        match to_binary_operator op with
        | none => some (Except.error (errUnknownOp op))
        | some bop =>
          match parse_expression fuel (tokens.drop (pos + 1)) (get_precedence op + 1) with
          | none => none
          | some (Except.error e) => some (Except.error e)
          | some (Except.ok (rhs, consumed)) =>
            parseExprLoop fuel tokens minPrec
              (Expression.BinaryOp lhs bop rhs) (pos + 1 + consumed)
    | _ => some (Except.ok (lhs, pos))

end

/-- `enum DBType` from src/parser.rs. -/
inductive DBType where
  | Int : DBType
  | Varchar : Nat → DBType
  | Bool : DBType
deriving Repr, DecidableEq

/-- `enum Constraint` from src/parser.rs. -/
inductive Constraint where
  | PrimaryKey : Constraint
  | NotNull : Constraint
  | Check : Expression → Constraint
deriving Repr, DecidableEq

/-- `struct TableColumn` from src/parser.rs. -/
structure TableColumn where
  column_name : String
  column_type : DBType
  constraints : List Constraint
deriving Repr, DecidableEq

/-- `enum Order` from src/parser.rs. -/
inductive Order where
  | Asc : Order
  | Desc : Order
deriving Repr, DecidableEq

/-- `enum Statement` from src/parser.rs.  The Rust field names `from` and
`where` are Lean keywords, hence `fromTable` and `whereClause` here. -/
inductive Statement where
  | Select : List Expression → String → Option Expression →
      List (Expression × Option Order) → Statement
  | CreateTable : String → List TableColumn → Statement
deriving Repr, DecidableEq

/-- Rust `{:?}` (derive Debug) rendering of a token, used inside error
messages of the statement parser. -/
def debugToken : Token → String
  | Token.Keyword s => "Keyword(" ++ dq ++ s ++ dq ++ ")"
  | Token.Identifier s => "Identifier(" ++ dq ++ s ++ dq ++ ")"
  | Token.Operator s => "Operator(" ++ dq ++ s ++ dq ++ ")"
  | Token.Number n => "Number(" ++ toString n ++ ")"
  | Token.StringLiteral s => "StringLiteral(" ++ dq ++ s ++ dq ++ ")"
  | Token.BoolLiteral b => "BoolLiteral(" ++ toString b ++ ")"
  | Token.Comma => "Comma"
  | Token.Semicolon => "Semicolon"
  | Token.LParen => "LParen"
  | Token.RParen => "RParen"
  | Token.Star => "Star"
  | Token.Asc => "Asc"
  | Token.Desc => "Desc"
  | Token.Int => "Int"
  | Token.Varchar n => "Varchar(" ++ toString n ++ ")"
  | Token.Bool => "Bool"
  | Token.PrimaryKey => "PrimaryKey"
  | Token.NotNull => "NotNull"
  | Token.Check => "Check"
  | Token.EOF => "EOF"

/-- The parenthesis scan of the `LParen` arm of the SELECT column loop:
starting at cursor `i` with nesting `level` and tokens collected so far,
consume tokens tracking nesting depth until the matching close (or the
iterator's end); an `EOF` token inside is the error `Unclosed
parenthesis`.  Returns the collected tokens and the new cursor. -/
def collectParen (fuel : Nat) (tokens : List Token) (i : Nat) (level : Nat)
    (acc : List Token) : Option (Except String (List Token × Nat)) :=
  match fuel with
  | 0 => none
  | fuel + 1 =>
    match tokens.get? i with
    | none => some (Except.ok (acc, i))
    | some t =>
      if t = Token.EOF then some (Except.error "Unclosed parenthesis")
      else
        let level' :=
          if t = Token.LParen then level + 1
          else if t = Token.RParen then level - 1
          else level
        if level' = 0 then some (Except.ok (acc ++ [t], i + 1))
        else collectParen fuel tokens (i + 1) level' (acc ++ [t])

/-- The column-collection loop of `parse_select_statement`
(src/parser.rs): parse column entries until a `FROM` keyword.  Returns
the column expressions and the cursor just past `FROM`. -/
def parseSelectColumns (fuel : Nat) (tokens : List Token) (i : Nat)
    (acc : List Expression) : Option (Except String (List Expression × Nat)) :=
  match fuel with
  | 0 => none
  | fuel + 1 =>
    match tokens.get? i with
    | some (Token.Identifier name) =>
      parseSelectColumns fuel tokens (i + 1) (acc ++ [Expression.Identifier name])
    | some (Token.StringLiteral s) =>
      parseSelectColumns fuel tokens (i + 1) (acc ++ [Expression.String s])
    | some (Token.Number n) =>
      parseSelectColumns fuel tokens (i + 1) (acc ++ [Expression.Number n])
    | some (Token.BoolLiteral b) =>
      parseSelectColumns fuel tokens (i + 1) (acc ++ [Expression.Bool b])
    | some Token.Star =>
      parseSelectColumns fuel tokens (i + 1) (acc ++ [Expression.Identifier "*"])
    | some Token.LParen =>
      match collectParen fuel tokens (i + 1) 1 [Token.LParen] with
      | none => none
      | some (Except.error e) => some (Except.error e)
      | some (Except.ok (inner, i')) =>
        -- `&inner_tokens[1..len-1]`: drop the recorded opening paren and
        -- the final collected token.
        match parse_expression fuel ((inner.drop 1).dropLast) 0 with
        | none => none
        | some (Except.error e) =>
          some (Except.error ("Error parsing expression in parentheses: " ++ e))
        | some (Except.ok (expr, _)) =>
          parseSelectColumns fuel tokens i' (acc ++ [expr])
    | some Token.Comma => parseSelectColumns fuel tokens (i + 1) acc
    | some (Token.Keyword k) =>
      if k = "FROM" then some (Except.ok (acc, i + 1))
      else some (Except.error ("Unexpected token in SELECT columns: " ++
        debugToken (Token.Keyword k)))
    | some t => some (Except.error ("Unexpected token in SELECT columns: " ++ debugToken t))
    | none => some (Except.error "Expected FROM clause")

/-- The ORDER BY loop of `parse_select_statement`: parse an expression
against the remaining original token stream, peek for ASC/DESC (the code
peeks before advancing past the expression), skip the consumed tokens,
and continue on a comma. -/
def parseOrderByLoop (fuel : Nat) (tokens : List Token) (i : Nat)
    (acc : List (Expression × Option Order)) :
    Option (Except String (List (Expression × Option Order) × Nat)) :=
  match fuel with
  | 0 => none
  | fuel + 1 =>
    match parse_expression fuel (tokens.drop i) 0 with
    | none => none
    | some (Except.error e) =>
      some (Except.error ("Error parsing ORDER BY expression: " ++ e))
    | some (Except.ok (expr, consumed)) =>
      -- `iter.peek()` here still sits at the start of the expression just
      -- parsed: the consumed-token skip only happens afterwards.
      let po : Option Order × Nat :=
        match tokens.get? i with
        | some Token.Asc => (some Order.Asc, i + 1)
        | some Token.Desc => (some Order.Desc, i + 1)
        | _ => (none, i)
      let i2 := po.2 + consumed
      let acc' := acc ++ [(expr, po.1)]
      match tokens.get? i2 with
      | some Token.Comma => parseOrderByLoop fuel tokens (i2 + 1) acc'
      | _ => some (Except.ok (acc', i2))

/-- `parse_select_statement` from src/parser.rs (the cursor `i` starts
just past the `SELECT` keyword). -/
def parse_select_statement (fuel : Nat) (tokens : List Token) (i : Nat) :
    Option (Except String Statement) :=
  match parseSelectColumns fuel tokens i [] with
  | none => none
  | some (Except.error e) => some (Except.error e)
  | some (Except.ok (columns, i1)) =>
    match tokens.get? i1 with
    | some (Token.Identifier name) =>
      let i2 := i1 + 1
      -- optional WHERE: parsed against the remaining original stream,
      -- then the cursor advances by the reported consumed count.
      let afterWhere : Option (Except String (Option Expression × Nat)) :=
        match tokens.get? i2 with
        | some (Token.Keyword k) =>
          if k = "WHERE" then
            match parse_expression fuel (tokens.drop (i2 + 1)) 0 with
            | none => none
            | some (Except.error e) =>
              some (Except.error ("Error parsing WHERE clause: " ++ e))
            | some (Except.ok (expr, consumed)) =>
              some (Except.ok (some expr, i2 + 1 + consumed))
          else some (Except.ok (none, i2))
        | _ => some (Except.ok (none, i2))
      match afterWhere with
      | none => none
      | some (Except.error e) => some (Except.error e)
      | some (Except.ok (whereClause, i3)) =>
        match tokens.get? i3 with
        | some (Token.Keyword k) =>
          if k = "ORDER" then
            match tokens.get? (i3 + 1) with
            | some (Token.Keyword byK) =>
              if byK = "BY" then
                match parseOrderByLoop fuel tokens (i3 + 2) [] with
                | none => none
                | some (Except.error e) => some (Except.error e)
                | some (Except.ok (orderby, _)) =>
                  some (Except.ok (Statement.Select columns name whereClause orderby))
              else some (Except.error "Expected BY after ORDER")
            | _ => some (Except.error "Expected BY after ORDER")
          else some (Except.ok (Statement.Select columns name whereClause []))
        | _ => some (Except.ok (Statement.Select columns name whereClause []))
    | some t =>
      some (Except.error ("Expected table name after FROM, got: " ++ debugToken t))
    | none => some (Except.error "Expected table name after FROM")

/-- The constraint scan of `parse_table_column` (src/parser.rs): read
constraints greedily until a comma, a closing paren, or any token that is
not a constraint opener. -/
def parseConstraints (fuel : Nat) (tokens : List Token) (i : Nat)
    (acc : List Constraint) : Option (Except String (List Constraint × Nat)) :=
  match fuel with
  | 0 => none
  | fuel + 1 =>
    match tokens.get? i with
    | some Token.PrimaryKey =>
      -- optionally swallow a following bare `KEY` keyword
      let i' :=
        match tokens.get? (i + 1) with
        | some (Token.Keyword k) => if k = "KEY" then i + 2 else i + 1
        | _ => i + 1
      parseConstraints fuel tokens i' (acc ++ [Constraint.PrimaryKey])
    | some (Token.Keyword k) =>
      if k = "NOT" then
        match tokens.get? (i + 1) with
        | some (Token.Keyword nullK) =>
          if nullK = "NULL" then
            parseConstraints fuel tokens (i + 2) (acc ++ [Constraint.NotNull])
          else some (Except.error "Expected NULL after NOT")
        | _ => some (Except.error "Expected NULL after NOT")
      else some (Except.ok (acc, i))
    | some Token.Check =>
      match tokens.get? (i + 1) with
      | some Token.LParen =>
        match parse_expression fuel (tokens.drop (i + 2)) 0 with
        | none => none
        | some (Except.error e) =>
          some (Except.error ("Error parsing CHECK expression: " ++ e))
        | some (Except.ok (expr, consumed)) =>
          let i2 := i + 2 + consumed
          match tokens.get? i2 with
          | some Token.RParen =>
            parseConstraints fuel tokens (i2 + 1) (acc ++ [Constraint.Check expr])
          | _ => some (Except.error "Expected closing parenthesis after CHECK expression")
      | _ => some (Except.error "Expected opening parenthesis after CHECK")
    | some Token.Comma => some (Except.ok (acc, i))
    | some Token.RParen => some (Except.ok (acc, i))
    | some _ => some (Except.ok (acc, i))
    | none => some (Except.ok (acc, i))

/-- `parse_table_column` from src/parser.rs: one data type token, then
the constraint scan. -/
def parse_table_column (fuel : Nat) (tokens : List Token) (i : Nat)
    (column_name : String) : Option (Except String (TableColumn × Nat)) :=
  match tokens.get? i with
  | some Token.Int =>
    match parseConstraints fuel tokens (i + 1) [] with
    | none => none
    | some (Except.error e) => some (Except.error e)
    | some (Except.ok (cs, i')) =>
      some (Except.ok (⟨column_name, DBType.Int, cs⟩, i'))
  | some (Token.Varchar len) =>
    match parseConstraints fuel tokens (i + 1) [] with
    | none => none
    | some (Except.error e) => some (Except.error e)
    | some (Except.ok (cs, i')) =>
      some (Except.ok (⟨column_name, DBType.Varchar len, cs⟩, i'))
  | some Token.Bool =>
    match parseConstraints fuel tokens (i + 1) [] with
    | none => none
    | some (Except.error e) => some (Except.error e)
    | some (Except.ok (cs, i')) =>
      some (Except.ok (⟨column_name, DBType.Bool, cs⟩, i'))
  | some t => some (Except.error ("Unexpected data type: " ++ debugToken t))
  | none => some (Except.error "Expected data type")

/-- The column-list loop of `parse_create_table_statement`: stop on a
closing paren; otherwise a column name identifier, its definition, then a
comma (consumed) or a closing paren (peeked only, consumed by the next
iteration). -/
def parseColumnList (fuel : Nat) (tokens : List Token) (i : Nat)
    (acc : List TableColumn) : Option (Except String (List TableColumn × Nat)) :=
  match fuel with
  | 0 => none
  | fuel + 1 =>
    match tokens.get? i with
    | some Token.RParen => some (Except.ok (acc, i + 1))
    | some (Token.Identifier colName) =>
      match parse_table_column fuel tokens (i + 1) colName with
      | none => none
      | some (Except.error e) => some (Except.error e)
      | some (Except.ok (col, i')) =>
        match tokens.get? i' with
        | some Token.Comma => parseColumnList fuel tokens (i' + 1) (acc ++ [col])
        | some Token.RParen => parseColumnList fuel tokens i' (acc ++ [col])
        | _ =>
          some (Except.error
            "Expected comma or closing parenthesis after column definition")
    | some _ => some (Except.error "Expected column name")
    | none => some (Except.error "Expected column name")

/-- `parse_create_table_statement` from src/parser.rs (cursor `i` starts
just past the `CREATE` keyword). -/
def parse_create_table_statement (fuel : Nat) (tokens : List Token) (i : Nat) :
    Option (Except String Statement) :=
  match tokens.get? i with
  | some (Token.Keyword k) =>
    if k = "TABLE" then
      match tokens.get? (i + 1) with
      | some (Token.Identifier name) =>
        match tokens.get? (i + 2) with
        | some Token.LParen =>
          match parseColumnList fuel tokens (i + 3) [] with
          | none => none
          | some (Except.error e) => some (Except.error e)
          | some (Except.ok (cols, _)) =>
            some (Except.ok (Statement.CreateTable name cols))
        | _ => some (Except.error "Expected opening parenthesis after table name")
      | _ => some (Except.error "Expected table name after CREATE TABLE")
    else some (Except.error "Expected TABLE after CREATE")
  | some _ => some (Except.error "Expected TABLE keyword")
  | none => some (Except.error "Expected TABLE keyword")

/-- `parse` from src/parser.rs: dispatch on the first token. -/
def parse (fuel : Nat) (tokens : List Token) : Option (Except String Statement) :=
  match tokens.get? 0 with
  | some (Token.Keyword k) =>
    if k = "SELECT" then parse_select_statement fuel tokens 1
    else if k = "CREATE" then parse_create_table_statement fuel tokens 1
    else some (Except.error "Unsupported or invalid SQL statement")
  | _ => some (Except.error "Unsupported or invalid SQL statement")

/-- On an exclamation mark the identifier run is empty: the lexer pushes
`Identifier ""` and leaves the character stream unchanged. -/
theorem tokStep_bang (rest : List Char) :
    tokStep '!' rest = ([Token.Identifier ""], '!' :: rest) := rfl

/-- From a stream headed by an exclamation mark the lexer makes no
progress: it exhausts any amount of fuel (the Rust loop never exits). -/
theorem tokenizeAux_bang (fuel : Nat) :
    ∀ (rest : List Char) (acc : List Token), tokenizeAux fuel ('!' :: rest) acc = none := by
  induction fuel with
  | zero => intro rest acc; rfl
  | succ n ih =>
    intro rest acc
    show tokenizeAux n (tokStep '!' rest).2 (acc ++ (tokStep '!' rest).1) = none
    rw [tokStep_bang]
    exact ih rest _

theorem tokRun_nil (n : Nat) : tokRun n [] = [] := by
  cases n <;> rfl

/-- If some number of lexer iterations leads from `cs` to a stream headed
by an exclamation mark, then the lexer diverges on `cs`: it returns
`none` at every fuel. -/
theorem tokenizeAux_none_of_tokRun_bang :
    ∀ (n : Nat) (cs rest : List Char), tokRun n cs = '!' :: rest →
      ∀ (fuel : Nat) (acc : List Token), tokenizeAux fuel cs acc = none := by
  intro n
  induction n with
  | zero =>
    intro cs rest h fuel acc
    have hcs : cs = '!' :: rest := h
    rw [hcs]
    exact tokenizeAux_bang fuel rest acc
  | succ n ih =>
    intro cs rest h fuel acc
    cases cs with
    | nil =>
      rw [tokRun_nil] at h
      exact absurd h (by simp)
    | cons c cs' =>
      have h' : tokRun n (tokStep c cs').2 = '!' :: rest := h
      cases fuel with
      | zero => rfl
      | succ f =>
        show tokenizeAux f (tokStep c cs').2 (acc ++ (tokStep c cs').1) = none
        exact ih _ rest h' f _

/-- C1 -- The lexer does NOT terminate on every input: on the input
consisting of a single exclamation mark (any character that neither
matches a dedicated arm nor can start an identifier run), the main loop
pushes `Identifier ""` without consuming the character and loops forever;
in the fuelled model, `tokenize` returns `none` at every fuel. -/
theorem c1_tokenize_diverges_on_bang (fuel : Nat) : tokenize fuel "!" = none := by
  show tokenizeAux fuel "!".data [] = none
  have h : "!".data = ['!'] := rfl
  rw [h]
  exact tokenizeAux_bang fuel [] []

/-- The input of the CREATE TABLE round-trip claim, built with explicit
apostrophe characters:
`CREATE TABLE t (id INT PRIMARY KEY NOT NULL, name VARCHAR(10) CHECK(name != ''))`. -/
def c2input : String :=
  "CREATE TABLE t (id INT PRIMARY KEY NOT NULL, name VARCHAR(10) CHECK(name != "
    ++ sq ++ sq ++ "))"

/-- The character stream at which the lexer gets stuck on `c2input`. -/
def c2rest : List Char := '=' :: ' ' :: quoteChar :: quoteChar :: ')' :: ')' :: []

/-- C2 -- Tokenizing the CREATE TABLE example of the claim does not
succeed: the lexer reaches the `!` of `!=` and loops forever (returns
`none` at every fuel), so no token sequence and no `CreateTable`
statement is ever produced. -/
theorem c2_create_table_input_tokenize_diverges (fuel : Nat) :
    tokenize fuel c2input = none := by
  show tokenizeAux fuel c2input.data [] = none
  exact tokenizeAux_none_of_tokRun_bang 60 c2input.data c2rest (by rfl) fuel []

/-- The token sequence of `SELECT a, b FROM t WHERE a = 1 ORDER BY b DESC`. -/
def c3tokens : List Token :=
  [Token.Keyword "SELECT", Token.Identifier "a", Token.Comma, Token.Identifier "b",
   Token.Keyword "FROM", Token.Identifier "t", Token.Keyword "WHERE",
   Token.Identifier "a", Token.Operator "=", Token.Number 1,
   Token.Keyword "ORDER", Token.Keyword "BY", Token.Identifier "b", Token.Desc,
   Token.EOF]

/-- C3 -- Tokenizing then parsing
`SELECT a, b FROM t WHERE a = 1 ORDER BY b DESC` does NOT attach the
`DESC` direction: the parser peeks for ASC/DESC before advancing past the
just-parsed order expression, so it sees `Identifier "b"` and records no
direction, yielding `order_by = [(Identifier "b", none)]` (the `Desc`
token is left as an ignored trailing token).  Columns, table name and the
WHERE expression come out as the claim states, and the WHERE expression
indeed stops before `ORDER`. -/
theorem c3_orderby_direction_dropped :
    tokenize 100 "SELECT a, b FROM t WHERE a = 1 ORDER BY b DESC" = some c3tokens ∧
      parse 100 c3tokens = some (Except.ok (Statement.Select
        [Expression.Identifier "a", Expression.Identifier "b"] "t"
        (some (Expression.BinaryOp (Expression.Identifier "a") BinaryOperator.Equal
          (Expression.Number 1)))
        [(Expression.Identifier "b", none)])) :=
  ⟨rfl, rfl⟩

/-- The token sequence of `a OR b AND c`. -/
def c4tokens : List Token :=
  [Token.Identifier "a", Token.Operator "OR", Token.Identifier "b",
   Token.Operator "AND", Token.Identifier "c", Token.EOF]

/-- C4 -- Tokenizing `a OR b AND c` and parsing at minimum precedence 0
yields `Or(Identifier a, And(Identifier b, Identifier c))` (AND, at
precedence 2, binds tighter than OR at precedence 1), consuming all five
expression tokens. -/
theorem c4_or_and_precedence :
    tokenize 100 "a OR b AND c" = some c4tokens ∧
      parse_expression 100 c4tokens 0 = some (Except.ok
        (Expression.BinaryOp (Expression.Identifier "a") BinaryOperator.Or
          (Expression.BinaryOp (Expression.Identifier "b") BinaryOperator.And
            (Expression.Identifier "c")), 5)) :=
  ⟨rfl, rfl⟩

/-- The token sequence of `NOT a AND b`. -/
def c5tokens : List Token :=
  [Token.Keyword "NOT", Token.Identifier "a", Token.Operator "AND",
   Token.Identifier "b", Token.EOF]

/-- C5 -- Tokenizing `NOT a AND b` and parsing at minimum precedence 0
yields `And(Not(Identifier a), Identifier b)`: the unary NOT recurses at
minimum precedence 6, above every binary operator, so it takes only the
tightest sub-expression (`a`) as its operand and the AND folds outside
it. -/
theorem c5_not_binds_tight :
    tokenize 100 "NOT a AND b" = some c5tokens ∧
      parse_expression 100 c5tokens 0 = some (Except.ok
        (Expression.BinaryOp
          (Expression.UnaryOp UnaryOperator.Not (Expression.Identifier "a"))
          BinaryOperator.And (Expression.Identifier "b"), 4)) :=
  ⟨rfl, rfl⟩

/-- C6 counterexample -- On `VARCHAR(ab)` (parenthesized content not a
valid unsigned integer) the lexer does emit the degraded
`Identifier "VARCHAR"`, but the malformed parenthesis content is NOT
silently dropped: only the opening paren, the (empty) digit run and one
further character are consumed, and the remaining character `b` between
the parentheses is tokenized as the further token `Identifier "b"`
(followed by `RParen`), refuting the no-further-tokens part of the
claim. -/
theorem c6_varchar_malformed_counterexample :
    tokenize 100 "VARCHAR(ab)" = some
      [Token.Identifier "VARCHAR", Token.Identifier "b", Token.RParen, Token.EOF] ∧
      Token.Identifier "b" ∈
        [Token.Identifier "VARCHAR", Token.Identifier "b", Token.RParen, Token.EOF] :=
  ⟨rfl, by simp⟩

/-- The word-classification step never produces the `EOF` token. -/
theorem classifyWord_no_EOF (ident : String) (rest : List Char) :
    Token.EOF ∉ (classifyWord ident rest).1 := by
  unfold classifyWord
  dsimp only
  by_cases h1 : toUppercase ident = "SELECT" ∨ toUppercase ident = "FROM" ∨
      toUppercase ident = "WHERE" ∨ toUppercase ident = "CREATE" ∨
      toUppercase ident = "TABLE" ∨ toUppercase ident = "ORDER" ∨
      toUppercase ident = "BY" ∨ toUppercase ident = "NOT"
  · rw [if_pos h1]; simp
  rw [if_neg h1]
  by_cases h2 : toUppercase ident = "AND" ∨ toUppercase ident = "OR"
  · rw [if_pos h2]; simp
  rw [if_neg h2]
  by_cases h3 : toUppercase ident = "TRUE"
  · rw [if_pos h3]; simp
  rw [if_neg h3]
  by_cases h4 : toUppercase ident = "FALSE"
  · rw [if_pos h4]; simp
  rw [if_neg h4]
  by_cases h5 : toUppercase ident = "ASC"
  · rw [if_pos h5]; simp
  rw [if_neg h5]
  by_cases h6 : toUppercase ident = "DESC"
  · rw [if_pos h6]; simp
  rw [if_neg h6]
  by_cases h7 : toUppercase ident = "INT"
  · rw [if_pos h7]; simp
  rw [if_neg h7]
  by_cases h8 : toUppercase ident = "VARCHAR"
  · rw [if_pos h8]
    cases parseU64 (takeDigits rest.tail).1 <;> simp
  rw [if_neg h8]
  by_cases h9 : toUppercase ident = "BOOL"
  · rw [if_pos h9]; simp
  rw [if_neg h9]
  by_cases h10 : toUppercase ident = "PRIMARY"
  · rw [if_pos h10]; simp
  rw [if_neg h10]
  by_cases h11 : toUppercase ident = "KEY"
  · rw [if_pos h11]; simp
  rw [if_neg h11]
  by_cases h12 : toUppercase ident = "NULL"
  · rw [if_pos h12]; simp
  rw [if_neg h12]
  by_cases h13 : toUppercase ident = "CHECK"
  · rw [if_pos h13]; simp
  rw [if_neg h13]
  cases parseI64 ident.data <;> simp

/-- No iteration of the lexer's loop ever pushes the `EOF` token: it is
appended only once, after the loop. -/
theorem tokStep_no_EOF (c : Char) (cs : List Char) : Token.EOF ∉ (tokStep c cs).1 := by
  unfold tokStep
  dsimp only
  by_cases h1 : c.isWhitespace = true
  · rw [if_pos h1]; simp
  rw [if_neg h1]
  by_cases h2 : c = ','
  · rw [if_pos h2]; simp
  rw [if_neg h2]
  by_cases h3 : c = ';'
  · rw [if_pos h3]; simp
  rw [if_neg h3]
  by_cases h4 : c = '('
  · rw [if_pos h4]; simp
  rw [if_neg h4]
  by_cases h5 : c = ')'
  · rw [if_pos h5]; simp
  rw [if_neg h5]
  by_cases h6 : c = '*'
  · rw [if_pos h6]; simp
  rw [if_neg h6]
  by_cases h7 : c = '<'
  · rw [if_pos h7]
    split <;> simp
  rw [if_neg h7]
  by_cases h8 : c = '>'
  · rw [if_pos h8]
    split <;> simp
  rw [if_neg h8]
  by_cases h9 : c = '='
  · rw [if_pos h9]; simp
  rw [if_neg h9]
  by_cases h10 : c = '+' ∨ c = '-' ∨ c = '/'
  · rw [if_pos h10]; simp
  rw [if_neg h10]
  by_cases h11 : c = quoteChar ∨ c = dquoteChar
  · rw [if_pos h11]; simp
  rw [if_neg h11]
  exact classifyWord_no_EOF _ _

/-- Any token list the lexer returns consists of the accumulator, then
EOF-free tokens pushed by the loop, then a single final `EOF`. -/
theorem tokenizeAux_shape (fuel : Nat) :
    ∀ (cs : List Char) (acc ts : List Token),
      tokenizeAux fuel cs acc = some ts →
      ∃ mid, ts = acc ++ mid ++ [Token.EOF] ∧ Token.EOF ∉ mid := by
  induction fuel with
  | zero =>
    intro cs acc ts h
    cases cs with
    | nil =>
      have h' : acc ++ [Token.EOF] = ts := Option.some.inj h
      exact ⟨[], by rw [← h']; simp, by simp⟩
    | cons c cs' => exact absurd h (by simp [tokenizeAux])
  | succ n ih =>
    intro cs acc ts h
    cases cs with
    | nil =>
      have h' : acc ++ [Token.EOF] = ts := Option.some.inj h
      exact ⟨[], by rw [← h']; simp, by simp⟩
    | cons c cs' =>
      have h' : tokenizeAux n (tokStep c cs').2 (acc ++ (tokStep c cs').1) = some ts := h
      obtain ⟨mid, hts, hmem⟩ := ih _ _ _ h'
      refine ⟨(tokStep c cs').1 ++ mid, ?_, ?_⟩
      · rw [hts]; simp [List.append_assoc]
      · intro hmm
        rcases List.mem_append.mp hmm with h1 | h1
        · exact tokStep_no_EOF c cs' h1
        · exact hmem h1

/-- C7 -- Whenever the lexer returns a token sequence, that sequence ends
with `EOF` and contains `EOF` exactly once. -/
theorem c7_eof_invariant (fuel : Nat) (input : String) (ts : List Token)
    (h : tokenize fuel input = some ts) :
    ts.getLast? = some Token.EOF ∧ ts.count Token.EOF = 1 := by
  obtain ⟨mid, hts, hmem⟩ := tokenizeAux_shape fuel input.data [] ts h
  subst hts
  refine ⟨by simp [List.getLast?_concat], ?_⟩
  simp [List.count_append, List.count_eq_zero.mpr hmem]

/-- Witness for C7 at the concrete input `a`. -/
theorem c7_eof_invariant_witness :
    tokenize 10 "a" = some [Token.Identifier "a", Token.EOF] ∧
      ([Token.Identifier "a", Token.EOF].getLast? = some Token.EOF ∧
        [Token.Identifier "a", Token.EOF].count Token.EOF = 1) :=
  ⟨rfl, c7_eof_invariant 10 "a" [Token.Identifier "a", Token.EOF] rfl⟩

/-- The fallback arm of `to_binary_operator` means it returns a value for
every operator text. -/
theorem to_binary_operator_total (op : String) : ∃ b, to_binary_operator op = some b := by
  unfold to_binary_operator
  by_cases h1 : op = "OR"
  · rw [if_pos h1]; exact ⟨_, rfl⟩
  rw [if_neg h1]
  by_cases h2 : op = "AND"
  · rw [if_pos h2]; exact ⟨_, rfl⟩
  rw [if_neg h2]
  by_cases h3 : op = "="
  · rw [if_pos h3]; exact ⟨_, rfl⟩
  rw [if_neg h3]
  by_cases h4 : op = "!="
  · rw [if_pos h4]; exact ⟨_, rfl⟩
  rw [if_neg h4]
  by_cases h5 : op = "<"
  · rw [if_pos h5]; exact ⟨_, rfl⟩
  rw [if_neg h5]
  by_cases h6 : op = "<="
  · rw [if_pos h6]; exact ⟨_, rfl⟩
  rw [if_neg h6]
  by_cases h7 : op = ">"
  · rw [if_pos h7]; exact ⟨_, rfl⟩
  rw [if_neg h7]
  by_cases h8 : op = ">="
  · rw [if_pos h8]; exact ⟨_, rfl⟩
  rw [if_neg h8]
  by_cases h9 : op = "+"
  · rw [if_pos h9]; exact ⟨_, rfl⟩
  rw [if_neg h9]
  by_cases h10 : op = "-"
  · rw [if_pos h10]; exact ⟨_, rfl⟩
  rw [if_neg h10]
  by_cases h11 : op = "*"
  · rw [if_pos h11]; exact ⟨_, rfl⟩
  rw [if_neg h11]
  by_cases h12 : op = "/"
  · rw [if_pos h12]; exact ⟨_, rfl⟩
  rw [if_neg h12]
  exact ⟨_, rfl⟩

/-- Every error string `parse_expression` or its operator loop can return
is one of the two reachable messages; in particular the Unknown-operator
message never occurs, because `to_binary_operator` always yields a
value. -/
theorem parse_expression_error_classes (fuel : Nat) :
    (∀ (tokens : List Token) (minPrec : Nat) (s : String),
      parse_expression fuel tokens minPrec = some (Except.error s) →
      s = errUnexpected ∨ s = errExpectedRParen) ∧
    (∀ (tokens : List Token) (minPrec : Nat) (lhs : Expression) (pos : Nat) (s : String),
      parseExprLoop fuel tokens minPrec lhs pos = some (Except.error s) →
      s = errUnexpected ∨ s = errExpectedRParen) := by
  induction fuel with
  | zero =>
    constructor
    · intro tokens minPrec s h
      exact absurd h (by simp [parse_expression])
    · intro tokens minPrec lhs pos s h
      exact absurd h (by simp [parseExprLoop])
  | succ fn ih =>
    obtain ⟨ihP, ihL⟩ := ih
    constructor
    · intro tokens minPrec s h
      cases tokens with
      | nil =>
        simp only [parse_expression] at h
        simp at h
        exact Or.inl h.symm
      | cons t rest =>
        cases t
        case Keyword k =>
          simp only [parse_expression] at h
          by_cases hk : k = "NOT"
          · rw [if_pos hk] at h
            cases hrec : parse_expression fn rest 6 with
            | none => rw [hrec] at h; simp at h
            | some r =>
              rw [hrec] at h
              cases r with
              | error e =>
                simp at h
                exact h ▸ ihP rest 6 e hrec
              | ok p =>
                obtain ⟨inner, consumed⟩ := p
                dsimp only at h
                exact ihL _ _ _ _ _ h
          · rw [if_neg hk] at h
            simp at h
            exact Or.inl h.symm
        case LParen =>
          simp only [parse_expression] at h
          cases hrec : parse_expression fn rest 0 with
          | none => rw [hrec] at h; simp at h
          | some r =>
            rw [hrec] at h
            cases r with
            | error e =>
              simp at h
              exact h ▸ ihP rest 0 e hrec
            | ok p =>
              obtain ⟨inner, consumed⟩ := p
              dsimp only at h
              cases hget : (Token.LParen :: rest).get? (1 + consumed) with
              | none => rw [hget] at h; simp at h; exact Or.inr h.symm
              | some u =>
                rw [hget] at h
                cases u
                case RParen =>
                  dsimp only at h
                  exact ihL _ _ _ _ _ h
                all_goals (simp at h; exact Or.inr h.symm)
        case Number k =>
          simp only [parse_expression] at h
          exact ihL _ _ _ _ _ h
        case StringLiteral s' =>
          simp only [parse_expression] at h
          exact ihL _ _ _ _ _ h
        case BoolLiteral b =>
          simp only [parse_expression] at h
          exact ihL _ _ _ _ _ h
        case Identifier nm =>
          simp only [parse_expression] at h
          exact ihL _ _ _ _ _ h
        all_goals (simp only [parse_expression] at h; simp at h; exact Or.inl h.symm)
    · intro tokens minPrec lhs pos s h
      simp only [parseExprLoop] at h
      cases hget : tokens.get? pos with
      | none => rw [hget] at h; simp at h
      | some t =>
        rw [hget] at h
        cases t
        case Operator op =>
          dsimp only at h
          by_cases hp : get_precedence op < minPrec
          · rw [if_pos hp] at h; simp at h
          rw [if_neg hp] at h
          obtain ⟨b, hb⟩ := to_binary_operator_total op
          rw [hb] at h
          dsimp only at h
          cases hrec : parse_expression fn (tokens.drop (pos + 1)) (get_precedence op + 1) with
          | none => rw [hrec] at h; simp at h
          | some r =>
            rw [hrec] at h
            cases r with
            | error e =>
              simp at h
              exact h ▸ ihP _ _ _ hrec
            | ok p =>
              obtain ⟨rhs, consumed⟩ := p
              dsimp only at h
              exact ihL _ _ _ _ _ h
        all_goals (simp at h)

/-- C8 -- `parse_expression` never returns the Unknown-operator error: any
error it returns is one of the two reachable messages, and neither equals
`Unknown operator '<op>'` for any operator text (the operator-mapping
step `to_binary_operator` always returns a value, so that branch is
unreachable). -/
theorem c8_no_unknown_operator_error (fuel : Nat) (tokens : List Token)
    (minPrec : Nat) (s : String)
    (h : parse_expression fuel tokens minPrec = some (Except.error s)) :
    (s = errUnexpected ∨ s = errExpectedRParen) ∧ ∀ op, s ≠ errUnknownOp op := by
  refine ⟨(parse_expression_error_classes fuel).1 tokens minPrec s h, ?_⟩
  intro op heq
  rcases (parse_expression_error_classes fuel).1 tokens minPrec s h with h1 | h1 <;> subst h1
  · have h3 : errUnexpected.data.take 3 = (errUnknownOp op).data.take 3 :=
      congrArg (fun t => t.data.take 3) heq
    have hu : (errUnknownOp op).data.take 3 = ['U', 'n', 'k'] := rfl
    rw [hu] at h3
    exact absurd h3 (by decide)
  · have h3 : errExpectedRParen.data.take 3 = (errUnknownOp op).data.take 3 :=
      congrArg (fun t => t.data.take 3) heq
    have hu : (errUnknownOp op).data.take 3 = ['U', 'n', 'k'] := rfl
    rw [hu] at h3
    exact absurd h3 (by decide)

/-- Witness for C8 at a concrete erroring input (an unclosed
parenthesis). -/
theorem c8_no_unknown_operator_error_witness :
    parse_expression 10 [Token.LParen, Token.EOF] 0 = some (Except.error errUnexpected) ∧
      ((errUnexpected = errUnexpected ∨ errUnexpected = errExpectedRParen) ∧
        ∀ op, errUnexpected ≠ errUnknownOp op) :=
  ⟨rfl, c8_no_unknown_operator_error 10 [Token.LParen, Token.EOF] 0 errUnexpected rfl⟩

/-- Whenever `parse_expression` (or its operator loop, entered at a
position within the slice) succeeds, the consumed count is at least 1 and
at most the slice length. -/
theorem parse_expression_consumed_bounds (fuel : Nat) :
    (∀ (tokens : List Token) (minPrec : Nat) (e : Expression) (n : Nat),
      parse_expression fuel tokens minPrec = some (Except.ok (e, n)) →
      1 ≤ n ∧ n ≤ tokens.length) ∧
    (∀ (tokens : List Token) (minPrec : Nat) (lhs : Expression) (pos : Nat)
        (e : Expression) (n : Nat),
      parseExprLoop fuel tokens minPrec lhs pos = some (Except.ok (e, n)) →
      1 ≤ pos → pos ≤ tokens.length → 1 ≤ n ∧ n ≤ tokens.length) := by
  induction fuel with
  | zero =>
    constructor
    · intro tokens minPrec e n h
      exact absurd h (by simp [parse_expression])
    · intro tokens minPrec lhs pos e n h hp1 hp2
      exact absurd h (by simp [parseExprLoop])
  | succ fn ih =>
    obtain ⟨ihP, ihL⟩ := ih
    constructor
    · intro tokens minPrec e n h
      cases tokens with
      | nil => simp only [parse_expression] at h; simp at h
      | cons t rest =>
        cases t
        case Number k =>
          simp only [parse_expression] at h
          exact ihL _ _ _ _ _ _ h (le_refl 1) (Nat.succ_le_succ (Nat.zero_le _))
        case StringLiteral s' =>
          simp only [parse_expression] at h
          exact ihL _ _ _ _ _ _ h (le_refl 1) (Nat.succ_le_succ (Nat.zero_le _))
        case BoolLiteral b =>
          simp only [parse_expression] at h
          exact ihL _ _ _ _ _ _ h (le_refl 1) (Nat.succ_le_succ (Nat.zero_le _))
        case Identifier nm =>
          simp only [parse_expression] at h
          exact ihL _ _ _ _ _ _ h (le_refl 1) (Nat.succ_le_succ (Nat.zero_le _))
        case Keyword k =>
          simp only [parse_expression] at h
          by_cases hk : k = "NOT"
          · rw [if_pos hk] at h
            cases hrec : parse_expression fn rest 6 with
            | none => rw [hrec] at h; simp at h
            | some r =>
              rw [hrec] at h
              cases r with
              | error e' => simp at h
              | ok p =>
                obtain ⟨inner, consumed⟩ := p
                dsimp only at h
                obtain ⟨hc1, hc2⟩ := ihP _ _ _ _ hrec
                refine ihL _ _ _ _ _ _ h (by omega) ?_
                simp only [List.length_cons]
                omega
          · rw [if_neg hk] at h; simp at h
        case LParen =>
          simp only [parse_expression] at h
          cases hrec : parse_expression fn rest 0 with
          | none => rw [hrec] at h; simp at h
          | some r =>
            rw [hrec] at h
            cases r with
            | error e' => simp at h
            | ok p =>
              obtain ⟨inner, consumed⟩ := p
              dsimp only at h
              obtain ⟨hc1, hc2⟩ := ihP _ _ _ _ hrec
              cases hget : (Token.LParen :: rest).get? (1 + consumed) with
              | none => rw [hget] at h; simp at h
              | some u =>
                rw [hget] at h
                cases u
                case RParen =>
                  dsimp only at h
                  obtain ⟨hlt, _⟩ := List.get?_eq_some.mp hget
                  refine ihL _ _ _ _ _ _ h (by omega) ?_
                  simp only [List.length_cons] at hlt ⊢
                  omega
                all_goals (simp at h)
        all_goals (simp only [parse_expression] at h; simp at h)
    · intro tokens minPrec lhs pos e n h hp1 hp2
      simp only [parseExprLoop] at h
      cases hget : tokens.get? pos with
      | none =>
        rw [hget] at h
        simp at h
        exact h.2 ▸ ⟨hp1, hp2⟩
      | some t =>
        rw [hget] at h
        cases t
        case Operator op =>
          dsimp only at h
          by_cases hp : get_precedence op < minPrec
          · rw [if_pos hp] at h
            simp at h
            exact h.2 ▸ ⟨hp1, hp2⟩
          rw [if_neg hp] at h
          obtain ⟨b, hb⟩ := to_binary_operator_total op
          rw [hb] at h
          dsimp only at h
          cases hrec : parse_expression fn (tokens.drop (pos + 1)) (get_precedence op + 1) with
          | none => rw [hrec] at h; simp at h
          | some r =>
            rw [hrec] at h
            cases r with
            | error e' => simp at h
            | ok p =>
              obtain ⟨rhs, consumed⟩ := p
              dsimp only at h
              obtain ⟨hc1, hc2⟩ := ihP _ _ _ _ hrec
              obtain ⟨hplt, _⟩ := List.get?_eq_some.mp hget
              have hlen : (tokens.drop (pos + 1)).length = tokens.length - (pos + 1) :=
                List.length_drop _ _
              refine ihL _ _ _ _ _ _ h (by omega) (by omega)
        all_goals (dsimp only at h; simp at h; exact h.2 ▸ ⟨hp1, hp2⟩)

/-- C9 -- If `parse_expression` succeeds with `(expression, consumed)`,
then `1 <= consumed <= tokens.length`: callers advancing their cursor by
the reported count stay within the token stream. -/
theorem c9_consumed_bounds (fuel : Nat) (tokens : List Token) (minPrec : Nat)
    (e : Expression) (n : Nat)
    (h : parse_expression fuel tokens minPrec = some (Except.ok (e, n))) :
    1 ≤ n ∧ n ≤ tokens.length :=
  (parse_expression_consumed_bounds fuel).1 tokens minPrec e n h

/-- Witness for C9 at a concrete one-token expression. -/
theorem c9_consumed_bounds_witness :
    parse_expression 10 [Token.Number 1, Token.EOF] 0 =
        some (Except.ok (Expression.Number 1, 1)) ∧
      (1 ≤ 1 ∧ 1 ≤ ([Token.Number 1, Token.EOF] : List Token).length) :=
  ⟨rfl, c9_consumed_bounds 10 [Token.Number 1, Token.EOF] 0 (Expression.Number 1) 1 rfl⟩

/-- C6 amended -- When the lexer encounters a VARCHAR word whose
parenthesized content is not a valid unsigned integer, it emits a plain
`Identifier` token holding the original un-upper-cased text, and consumes
only the character following the word, the maximal digit run, and one
further character; the remaining characters between the parentheses are
then tokenized normally and do produce further tokens.  Shown on
`VARCHAR(ab)` and on `vArChAr(ab)` (original casing preserved). -/
theorem c6_varchar_malformed_amended :
    tokenize 100 "VARCHAR(ab)" = some
      [Token.Identifier "VARCHAR", Token.Identifier "b", Token.RParen, Token.EOF] ∧
      tokenize 100 "vArChAr(ab)" = some
        [Token.Identifier "vArChAr", Token.Identifier "b", Token.RParen, Token.EOF] :=
  ⟨rfl, rfl⟩

/-- When the token after the table name is neither the `WHERE` keyword
nor the `ORDER` keyword, `parse_select_statement` returns the statement
built from the columns and table name alone: it peeks that one token and
never touches anything after it. -/
theorem parse_select_statement_no_clause (fuel : Nat) (tokens : List Token) (i i1 : Nat)
    (cols : List Expression) (name : String)
    (hcols : parseSelectColumns fuel tokens i [] = some (Except.ok (cols, i1)))
    (hname : tokens.get? i1 = some (Token.Identifier name))
    (hnk : ∀ k, tokens.get? (i1 + 1) = some (Token.Keyword k) →
      k ≠ "WHERE" ∧ k ≠ "ORDER") :
    parse_select_statement fuel tokens i =
      some (Except.ok (Statement.Select cols name none [])) := by
  unfold parse_select_statement
  rw [hcols]
  dsimp only
  rw [hname]
  cases hg : tokens.get? (i1 + 1) with
  | none => simp [← List.get?_eq_getElem?, hg]
  | some tok =>
    cases tok
    case Keyword k =>
      obtain ⟨h1, h2⟩ := hnk k hg
      simp [← List.get?_eq_getElem?, hg, h1, h2]
    all_goals simp [← List.get?_eq_getElem?, hg]

/-- C10 -- The statement parser does not require the statement to consume
the whole token sequence: a SELECT is complete after the table name
whenever the next token is not the WHERE or ORDER keyword, a CREATE TABLE
after the closing paren of its column list, and in both cases `parse`
returns Ok with a statement that does not depend on the arbitrary
trailing tokens `rest`, which are silently ignored. -/
theorem c10_trailing_tokens_ignored (t : String) (rest : List Token)
    (hw : rest.head? ≠ some (Token.Keyword "WHERE"))
    (ho : rest.head? ≠ some (Token.Keyword "ORDER")) :
    parse 100 ([Token.Keyword "SELECT", Token.Star, Token.Keyword "FROM",
        Token.Identifier t] ++ rest) =
      some (Except.ok (Statement.Select [Expression.Identifier "*"] t none [])) ∧
      parse 100 ([Token.Keyword "CREATE", Token.Keyword "TABLE", Token.Identifier t,
        Token.LParen, Token.Identifier "id", Token.Int, Token.RParen] ++ rest) =
      some (Except.ok (Statement.CreateTable t [⟨"id", DBType.Int, []⟩])) := by
  constructor
  · show parse_select_statement 100
      ([Token.Keyword "SELECT", Token.Star, Token.Keyword "FROM",
        Token.Identifier t] ++ rest) 1 = _
    refine parse_select_statement_no_clause 100 _ 1 3 [Expression.Identifier "*"] t
      rfl rfl ?_
    intro k hg
    have hg' : rest.head? = some (Token.Keyword k) := by
      rw [← List.get?_zero]
      exact hg
    constructor
    · intro hk
      rw [hk] at hg'
      exact hw hg'
    · intro hk
      rw [hk] at hg'
      exact ho hg'
  · rfl

/-- Witness for C10 with table name `t` and a trailing semicolon. -/
theorem c10_trailing_tokens_ignored_witness :
    parse 100 ([Token.Keyword "SELECT", Token.Star, Token.Keyword "FROM",
        Token.Identifier "t"] ++ [Token.Semicolon]) =
      some (Except.ok (Statement.Select [Expression.Identifier "*"] "t" none [])) ∧
      parse 100 ([Token.Keyword "CREATE", Token.Keyword "TABLE", Token.Identifier "t",
        Token.LParen, Token.Identifier "id", Token.Int, Token.RParen] ++
          [Token.Semicolon]) =
      some (Except.ok (Statement.CreateTable "t" [⟨"id", DBType.Int, []⟩])) :=
  c10_trailing_tokens_ignored "t" [Token.Semicolon] (by simp) (by simp)

end SQL
